import Mathlib

/-!
Verification of the Docker containerizer (`src/slave/containerizer/docker.cpp`)
against its natural-language specification.

The development shallowly embeds the relevant C++ into Lean:
pure helpers become Lean functions, the per-container asynchronous state
machine becomes an explicit step function on an engine state, and the
fallible operations return `Except`.  Strings from the source are kept
verbatim; Docker container names are modelled as `List Char` so that the
name codec can be reasoned about by structural induction.
-/

/-! ## Name codec (`parse` at docker.cpp:85-120) -/

/-- `DOCKER_NAME_PREFIX` (docker.cpp:75), as a character list. -/
def DOCKER_NAME_PREFIX_L : List Char := ['m', 'e', 's', 'o', 's', '-']

/-- `DOCKER_NAME_SEPERATOR` (docker.cpp:78) is the single character `.`. -/
def DOCKER_NAME_SEPERATOR_C : Char := '.'

/-- `strings::remove(s, p, PREFIX)` guarded by `strings::startsWith(s, p)`:
returns the remainder when `p` is a leading part of `s`, else `none`. -/
def dropPre : List Char → List Char → Option (List Char)
  | [], s => some s
  | _ :: _, [] => none
  | p :: ps, x :: xs => if p = x then dropPre ps xs else none

/-- `strings::split(s, delims)` for a one-character delimiter: splits at every
occurrence, keeping empty tokens (stout semantics). -/
def splitOnChar (c : Char) : List Char → List (List Char)
  | [] => [[]]
  | x :: xs =>
    if x = c then [] :: splitOnChar c xs
    else
      match splitOnChar c xs with
      | [] => [[x]]
      | t :: ts => (x :: t) :: ts

/-- The body of `parse` after the `mesos-` (or `/mesos-`) lead has been
removed (docker.cpp:97-117): a remainder without the separator is a legacy
(< 0.23.0) name and is itself the ContainerID; otherwise the remainder is
split on the separator and `parts[1]` is returned for 2 or 3 parts. -/
def parseRemainder (n : List Char) : Option (List Char) :=
  if DOCKER_NAME_SEPERATOR_C ∈ n then
    match splitOnChar DOCKER_NAME_SEPERATOR_C n with
    | [_, b] => some b
    | [_, b, _] => some b
    | _ => none
  else some n

/-- `parse` (docker.cpp:85-120): strip the `mesos-` lead, or failing that the
`/mesos-` lead; return `none` for names that carry neither. -/
def parse (nm : List Char) : Option (List Char) :=
  match dropPre DOCKER_NAME_PREFIX_L nm with
  | some r => parseRemainder r
  | none =>
    match dropPre ('/' :: DOCKER_NAME_PREFIX_L) nm with
    | some r => parseRemainder r
    | none => none

/-- Modelled from the spec: `Container::name()` lives in the containerizer
header, which is not under `src/`; per §6 the generated name is
`mesos-<slaveId>.<containerId>`. -/
def makeName (slaveId cid : List Char) : List Char :=
  DOCKER_NAME_PREFIX_L ++ slaveId ++ DOCKER_NAME_SEPERATOR_C :: cid

/-- Modelled from the spec: the legacy (< 0.23.0) name `mesos-<containerId>`
described at docker.cpp:98-104 and spec §4.1. -/
def legacyName (cid : List Char) : List Char :=
  DOCKER_NAME_PREFIX_L ++ cid

/-! ### Codec lemmas -/

theorem dropPre_append (p r : List Char) : dropPre p (p ++ r) = some r := by
  induction p with
  | nil => rfl
  | cons x xs ih => simp [dropPre, ih]

theorem dropPre_slash (nm : List Char) :
    dropPre DOCKER_NAME_PREFIX_L ('/' :: nm) = none := by
  simp [DOCKER_NAME_PREFIX_L, dropPre]

theorem parse_pre (r : List Char) :
    parse (DOCKER_NAME_PREFIX_L ++ r) = parseRemainder r := by
  simp [parse, dropPre_append]

theorem parse_slash_pre (r : List Char) :
    parse ('/' :: (DOCKER_NAME_PREFIX_L ++ r)) = parseRemainder r := by
  have h : dropPre ('/' :: DOCKER_NAME_PREFIX_L)
      ('/' :: (DOCKER_NAME_PREFIX_L ++ r)) = some r := by
    simp [dropPre, dropPre_append DOCKER_NAME_PREFIX_L r]
  simp [parse, dropPre_slash, h]

theorem splitOnChar_ne_mem (c : Char) (xs : List Char) (h : c ∉ xs) :
    splitOnChar c xs = [xs] := by
  induction xs with
  | nil => rfl
  | cons x rest ih =>
    have hx : x ≠ c := fun hc => h (hc ▸ List.mem_cons_self x rest)
    have hrest : c ∉ rest := fun hc => h (List.mem_cons_of_mem x hc)
    simp [splitOnChar, hx, ih hrest]

theorem splitOnChar_append (c : Char) (xs ys : List Char) (h : c ∉ xs) :
    splitOnChar c (xs ++ c :: ys) = xs :: splitOnChar c ys := by
  induction xs with
  | nil => simp [splitOnChar]
  | cons x rest ih =>
    have hx : x ≠ c := fun hc => h (hc ▸ List.mem_cons_self x rest)
    have hrest : c ∉ rest := fun hc => h (List.mem_cons_of_mem x hc)
    simp [splitOnChar, hx, ih hrest]

theorem splitOnChar_length_one (c : Char) (xs : List Char)
    (h : c ∉ xs) : (splitOnChar c xs).length = 1 := by
  simp [splitOnChar_ne_mem c xs h]

/-! ## Engine data model

The Docker containerizer process (`DockerContainerizerProcess`) runs as a
single-threaded actor, so its public operations and the continuations of its
launch/destroy pipelines are modelled as functions on an explicit
`EngineState`.  The `termination` promise of each container is kept per
ContainerID outside the registry record (in the source it is owned by the
`Container` object and observed through `wait`); a ghost counter `tcount`
records how many times it has been fulfilled (set or failed), and the ghost
fields `pullDiscarded` / `ranRun` record whether the in-flight pull was
discarded and whether `docker run` was ever issued for the id.
-/

/-- `Container::State` (registry record states, spec §3). -/
inductive ContainerState where
  | FETCHING
  | PULLING
  | RUNNING
  | DESTROYING
deriving DecidableEq, Repr

/-- The `containerizer::Termination` message: `killed`, `message`, and the
optional exit `status`. -/
structure Termination where
  killed : Bool
  message : String
  status : Option Int
deriving DecidableEq, Repr

/-- A single-assignment promise of a `Termination`: unset, set to a value, or
failed with a message. -/
inductive PromiseState where
  | unset
  | value (t : Termination)
  | failedWith (msg : String)
deriving DecidableEq, Repr

/-- The last-applied resource allocation.  Memory is in bytes; cpus is kept
as a natural number since no verified property depends on fractional cpus. -/
structure Resources where
  cpus : Option Nat
  mem : Option Nat
deriving DecidableEq, Repr

/-- The registry's `Container` record fields that the verified claims
observe.  `runFailed` mirrors `container->run.isFailed()` together with the
failure message. -/
structure Container where
  state : ContainerState
  resources : Resources
  pid : Option Nat
  executorPid : Option Nat
  runFailed : Option String
deriving DecidableEq, Repr

/-- The cgroup control files that `__update` (docker.cpp:1177-1305) writes:
`cpu.shares`, `memory.soft_limit_in_bytes` and `memory.limit_in_bytes`. -/
structure CgroupState where
  cpuShares : Nat
  memorySoftLimit : Nat
  memoryHardLimit : Nat
deriving DecidableEq, Repr

/-- The agent flags the verified operations consult. -/
structure Flags where
  docker_mesos_image : Option String
  docker_kill_orphans : Bool
deriving DecidableEq, Repr

/-- The containerizer process state: the registry plus the per-id promise
and ghost bookkeeping, the cgroup files of the one container under
observation, and the (immutable) flags. -/
structure EngineState where
  registry : String → Option Container
  term : String → PromiseState
  tcount : String → Nat
  pullDiscarded : String → Bool
  ranRun : String → Bool
  cg : CgroupState
  fl : Flags

/-- Pointwise update of a finite-support map. -/
def setF {α : Type} (f : String → α) (id : String) (v : α) : String → α :=
  fun i => if i = id then v else f i

theorem setF_same {α : Type} (f : String → α) (id : String) (v : α) :
    setF f id v id = v := by simp [setF]

theorem setF_other {α : Type} (f : String → α) (id i : String) (v : α)
    (h : i ≠ id) : setF f id v i = f i := by simp [setF, h]

theorem setF_setF {α : Type} (f : String → α) (id : String) (v w : α) :
    setF (setF f id v) id w = setF f id w := by
  funext i
  by_cases he : i = id <;> simp [setF, he]


/-- Fulfil the termination promise with `t` and erase the registry record,
as every removal path of the source does (docker.cpp:1436-1439, 1475-1484,
1493-1501, 1583-1596, 1618-1639). -/
def removeWith (s : EngineState) (id : String) (t : PromiseState) : EngineState :=
  { s with
    registry := setF s.registry id none,
    term := setF s.term id t,
    tcount := setF s.tcount id (s.tcount id + 1) }

/-- Cgroup constants.  Modelled from the spec: they come from
`slave/containerizer/isolators/cgroups/constants.hpp`, which is not under
`src/`; §4.7 and §8/S7 name `CPU_SHARES_PER_CPU`, `MIN_CPU_SHARES` and
`MIN_MEMORY`.  No verified property depends on the numeric values. -/
def CPU_SHARES_PER_CPU : Nat := 1024

/-- Modelled from the spec: see `CPU_SHARES_PER_CPU`. -/
def MIN_CPU_SHARES : Nat := 2

/-- Modelled from the spec: see `CPU_SHARES_PER_CPU`. -/
def MIN_MEMORY : Nat := 32 * 1024 * 1024

/-! ## Resource updater (`update` / `_update` / `__update`, docker.cpp:1103-1305) -/

/-- `__update` (docker.cpp:1177-1305): the cgroup writes.  `cpuMember` and
`memMember` say whether the container's pid is a member of a cgroup in the
`cpu` resp. `memory` hierarchy (when not, that subsystem is skipped, spec
§4.7 step 4).  CPU: `cpu.shares := max(CPU_SHARES_PER_CPU*cpus,
MIN_CPU_SHARES)`.  Memory: the soft limit is always written to
`max(mem, MIN_MEMORY)`; the hard limit only when the new limit exceeds the
current one (docker.cpp:1284-1300). -/
def updateCg (r : Resources) (cpuMember memMember : Bool) (cg : CgroupState) :
    CgroupState :=
  let cg1 :=
    match r.cpus with
    | some c =>
      if cpuMember then
        { cg with cpuShares := max (CPU_SHARES_PER_CPU * c) MIN_CPU_SHARES }
      else cg
    | none => cg
  match r.mem with
  | some m =>
    if memMember then
      let limit := max m MIN_MEMORY
      let cg2 := { cg1 with memorySoftLimit := limit }
      if cg2.memoryHardLimit < limit then { cg2 with memoryHardLimit := limit }
      else cg2
    else cg1
  | none => cg1

/-- `update` (docker.cpp:1103-1153) together with its continuations
`_update` / `__update`: short-circuits on unknown id, DESTROYING state and
identical resources; then stores the requested resources; then short-circuits
when the agent runs nested-in-Docker or neither cpu nor memory is present;
resolves the pid (cached, else the `docker inspect` result `inspectPid`,
cached on success) and performs the cgroup writes. -/
def updateOp (s : EngineState) (id : String) (r : Resources)
    (inspectPid : Option Nat) (cpuMember memMember : Bool) : EngineState :=
  match s.registry id with
  | none => s
  | some c =>
    if c.state = ContainerState.DESTROYING then s
    else if c.resources = r then s
    else
      -- Store the resources for usage() (docker.cpp:1129-1130).
      let c1 : Container := { c with resources := r }
      let s1 : EngineState := { s with registry := setF s.registry id (some c1) }
      if s.fl.docker_mesos_image.isSome then s1
      else if r.cpus = none ∧ r.mem = none then s1
      else
        match c1.pid with
        | some _ => { s1 with cg := updateCg r cpuMember memMember s1.cg }
        | none =>
          match inspectPid with
          | none => s1
          | some p =>
            { s1 with
              registry := setF s1.registry id (some { c1 with pid := some p }),
              cg := updateCg r cpuMember memMember s1.cg }

/-- One requested update: target id, resources, the `docker inspect` pid
outcome, and the cgroup memberships of the resolved pid. -/
structure UpdReq where
  id : String
  r : Resources
  inspectPid : Option Nat
  cpuMember : Bool
  memMember : Bool

/-- A sequence of `update` calls. -/
def applyUpdates (s : EngineState) (l : List UpdReq) : EngineState :=
  l.foldl (fun s u => updateOp s u.id u.r u.inspectPid u.cpuMember u.memMember) s

/-! ## Usage probe (`usage` / `_usage` / `__usage`, docker.cpp:1308-1399) -/

/-- `ContainerInfo::Type`. -/
inductive CType where
  | DOCKER
  | MESOS
deriving DecidableEq, Repr

/-- The part of `ContainerInfo` that the launch front-end inspects. -/
structure ContainerInfo where
  ctype : CType
deriving DecidableEq, Repr

/-- Outcome of the synchronous front part of `launch`: an immediate
`Failure`, an immediate `false` (fall through to another containerizer), or
the registration of the container and the start of the launch pipeline
(which eventually resolves `true`). -/
inductive LaunchOutcome where
  | failure (msg : String)
  | result (b : Bool)
deriving DecidableEq, Repr

/-- A fresh registry record.  The record starts in FETCHING (spec §4.4: the
pipeline's first stage is the fetch; `_launch` moves it to PULLING). -/
def freshContainer (r : Resources) : Container :=
  { state := ContainerState.FETCHING, resources := r, pid := none,
    executorPid := none, runFailed := none }

/-- The synchronous front of both `launch` variants (docker.cpp:683-714 for
the task variant on `taskInfo.container()`, docker.cpp:964-995 for the
executor variant on `executorInfo.container()`): fail on a duplicate
ContainerID, return `false` (no failure, no insertion) when the request has
no container info or a non-DOCKER type, fail when `Container::create` fails
(sandbox preparation), and otherwise insert the new record. -/
def launchFront (s : EngineState) (id : String) (info : Option ContainerInfo)
    (createRes : Except String Resources) : EngineState × LaunchOutcome :=
  if (s.registry id).isSome then
    (s, LaunchOutcome.failure "Container already started")
  else
    match info with
    | none => (s, LaunchOutcome.result false)
    | some ci =>
      if ci.ctype ≠ CType.DOCKER then (s, LaunchOutcome.result false)
      else
        match createRes with
        | Except.error e =>
          (s, LaunchOutcome.failure ("Failed to create container: " ++ e))
        | Except.ok r =>
          ({ s with registry := setF s.registry id (some (freshContainer r)) },
           LaunchOutcome.result true)

/-! ## Launch pipeline continuations and destroy (docker.cpp:747-788, 1413-1640) -/

/-- `_launch` (docker.cpp:747-765): after the fetch, re-check registry
membership (destroy may have erased the record) and move to PULLING. -/
def fetchOkOp (s : EngineState) (id : String) : EngineState :=
  match s.registry id with
  | none => s
  | some c =>
    { s with registry := setF s.registry id (some { c with state := ContainerState.PULLING }) }

/-- `__launch` (docker.cpp:768-788): after the pull, re-check registry
membership; when the container was destroyed while pulling, fail without
issuing `docker run`; otherwise move to RUNNING and issue `docker run`
(recorded in the ghost `ranRun`). -/
def launchAfterPull (s : EngineState) (id : String) :
    EngineState × Except String Unit :=
  match s.registry id with
  | none => (s, Except.error "Container was destroyed while pulling image")
  | some c =>
    ({ s with
        registry := setF s.registry id (some { c with state := ContainerState.RUNNING }),
        ranRun := setF s.ranRun id true },
     Except.ok ())

/-- The state effect of a successful `__launch`. -/
def pullOkOp (s : EngineState) (id : String) : EngineState :=
  (launchAfterPull s id).1

/-- The `docker run` future failing (`container->run` becomes Failed): only
meaningful once the run was issued and it fails at most once. -/
def runFailOp (s : EngineState) (id : String) (msg : String) : EngineState :=
  match s.registry id with
  | none => s
  | some c =>
    if s.ranRun id ∧ c.runFailed = none then
      { s with registry := setF s.registry id (some { c with runFailed := some msg }) }
    else s

/-- `destroy` (docker.cpp:1413-1541).  In order: ignore unknown ids; the
run-failed cleanup path (fulfil termination with the run's failure message
and erase); ignore a container already DESTROYING; the FETCHING path (kill
the fetch, fulfil, erase); the PULLING path (discard the pull, fulfil,
erase); otherwise (RUNNING) stop the executor container, move to DESTROYING
and wait for the status future (continued by `stopFailedOp`/`teardownOp`). -/
def destroyOp (s : EngineState) (id : String) (killed : Bool) : EngineState :=
  match s.registry id with
  | none => s
  | some c =>
    match c.runFailed with
    | some m =>
      removeWith s id (PromiseState.value
        { killed := killed, message := "Failed to run container: " ++ m, status := none })
    | none =>
      if c.state = ContainerState.DESTROYING then s
      else if c.state = ContainerState.FETCHING then
        removeWith s id (PromiseState.value
          { killed := killed, message := "Container destroyed while fetching", status := none })
      else if c.state = ContainerState.PULLING then
        removeWith { s with pullDiscarded := setF s.pullDiscarded id true } id
          (PromiseState.value
            { killed := killed, message := "Container destroyed while pulling image",
              status := none })
      else
        { s with registry := setF s.registry id (some { c with state := ContainerState.DESTROYING }) }

/-- `__destroy` when the `docker stop` failed or was discarded
(docker.cpp:1577-1598): fail the termination with the stop error and erase
(the delayed `docker rm` is still scheduled). -/
def stopFailedOp (s : EngineState) (id : String) (msg : String) : EngineState :=
  match s.registry id with
  | none => s
  | some c =>
    if c.state = ContainerState.DESTROYING then
      removeWith s id (PromiseState.failedWith
        ("Failed to kill the Docker container: " ++ msg))
    else s

/-- `___destroy` (docker.cpp:1609-1640): the normal RUNNING teardown once the
status future has settled; set the Termination (with the exit status when
available) and erase. -/
def teardownOp (s : EngineState) (id : String) (killed : Bool)
    (status : Option Int) : EngineState :=
  match s.registry id with
  | none => s
  | some c =>
    if c.state = ContainerState.DESTROYING then
      removeWith s id (PromiseState.value
        { killed := killed,
          message := if killed then "Container killed" else "Container terminated",
          status := status })
    else s

/-- Launch registration as a trace event: inserts a fresh FETCHING record for
an unknown id.  The freshness guard `tcount id = 0` encodes the caller's
contract that ContainerIDs are unique (spec §3: uniqueness is the caller's
responsibility), so an id is never reused after its teardown. -/
def launchInsOp (s : EngineState) (id : String) (r : Resources) : EngineState :=
  if s.registry id = none ∧ s.tcount id = 0 then
    { s with registry := setF s.registry id (some (freshContainer r)) }
  else s

/-- `recoverContainer`'s registry insertion (docker.cpp:643-647): a recovered
record starts directly in RUNNING.  Guarded like `launchInsOp`. -/
def recoverInsOp (s : EngineState) (id : String) : EngineState :=
  if s.registry id = none ∧ s.tcount id = 0 then
    { s with registry := setF s.registry id (some
        { freshContainer { cpus := none, mem := none } with state := ContainerState.RUNNING }) }
  else s

/-- `_usage`/`_update` caching the inspected pid on the record. -/
def setPidOp (s : EngineState) (id : String) (p : Nat) : EngineState :=
  match s.registry id with
  | none => s
  | some c =>
    { s with registry := setF s.registry id (some { c with pid := some p }) }

/-- The events of the engine's serial execution context that touch the
registry, the termination promises, or the per-container state. -/
inductive Event where
  | launchIns (id : String) (r : Resources)
  | recoverIns (id : String)
  | fetchOk (id : String)
  | pullOk (id : String)
  | runFail (id : String) (msg : String)
  | destroy (id : String) (killed : Bool)
  | stopFailed (id : String) (msg : String)
  | teardown (id : String) (killed : Bool) (status : Option Int)
  | updateRes (u : UpdReq)
  | setPid (id : String) (p : Nat)

/-- Dispatch one event. -/
def step (s : EngineState) : Event → EngineState
  | Event.launchIns id r => launchInsOp s id r
  | Event.recoverIns id => recoverInsOp s id
  | Event.fetchOk id => fetchOkOp s id
  | Event.pullOk id => pullOkOp s id
  | Event.runFail id msg => runFailOp s id msg
  | Event.destroy id killed => destroyOp s id killed
  | Event.stopFailed id msg => stopFailedOp s id msg
  | Event.teardown id killed status => teardownOp s id killed status
  | Event.updateRes u => updateOp s u.id u.r u.inspectPid u.cpuMember u.memMember
  | Event.setPid id p => setPidOp s id p

/-- Run a sequence of events. -/
def runTrace (s : EngineState) (evs : List Event) : EngineState :=
  evs.foldl step s

/-- The engine's initial state under flags `fl`: empty registry, no promise
fulfilled. -/
def initState (fl : Flags) : EngineState :=
  { registry := fun _ => none,
    term := fun _ => PromiseState.unset,
    tcount := fun _ => 0,
    pullDiscarded := fun _ => false,
    ranRun := fun _ => false,
    cg := { cpuShares := 0, memorySoftLimit := 0, memoryHardLimit := 0 },
    fl := fl }

/-- The destroy-driven teardown events for a given id: `destroy` itself and
its `__destroy`/`___destroy` continuations. -/
def destroysId : Event → String → Bool
  | Event.destroy i _, id => i == id
  | Event.stopFailed i _, id => i == id
  | Event.teardown i _ _, id => i == id
  | _, _ => false

/-! ## Recovery (`recover` / `_recover` / `recoverContainer`, docker.cpp:462-670) -/

/-- The part of `Docker::Container` (a `docker ps` row) that recovery
inspects: the container name, the daemon-assigned docker id, and the init
pid (absent when the container already stopped). -/
structure DockerPs where
  name : List Char
  dockerId : String
  pid : Option Nat
deriving DecidableEq, Repr

/-- `strings::contains` for character lists (substring containment). -/
def containsSub (pat : List Char) : List Char → Bool
  | [] => decide (pat = [])
  | c :: cs => (dropPre pat (c :: cs)).isSome || containsSub pat cs

/-- The partition loop of `_recover` (docker.cpp:486-504): for each live
Docker container, parse its name; ignore containers Mesos did not start;
names containing `.executor` are executor-helper containers, the rest are
task/executor containers.  Both maps are keyed by the parsed ContainerID. -/
def partitionRecover : List DockerPs → List (List Char × DockerPs) × List (List Char × DockerPs)
  | [] => ([], [])
  | d :: rest =>
    let (cs, es) := partitionRecover rest
    match parse d.name with
    | none => (cs, es)
    | some id =>
      if containsSub ('.' :: ['e', 'x', 'e', 'c', 'u', 't', 'o', 'r']) d.name then
        (cs, (id, d) :: es)
      else ((id, d) :: cs, es)

/-- Association-list lookup keyed by ContainerID. -/
def lookupId (l : List (List Char × DockerPs)) (id : List Char) : Option DockerPs :=
  match l.find? (fun kv => kv.1 = id) with
  | none => none
  | some kv => some kv.2

/-- Association-list erase keyed by ContainerID. -/
def eraseId (l : List (List Char × DockerPs)) (id : List Char) :
    List (List Char × DockerPs) :=
  l.filter (fun kv => kv.1 ≠ id)

/-- The mutable recovery state that `recoverContainer` threads: the two
container maps and the set of pids already claimed by earlier recoveries. -/
structure RecState where
  cs : List (List Char × DockerPs)
  es : List (List Char × DockerPs)
  pids : List Nat
deriving DecidableEq, Repr

/-- A persisted `RunState` of an executor's latest run. -/
structure RunRec where
  containerId : List Char
  forkedPid : Option Nat
  completed : Bool
deriving DecidableEq, Repr

/-- The early-skip conditions of `recoverContainer` (docker.cpp:596-621): the
forked pid is dead and a live container exists, but either that container
already stopped (no pid) or no executor-helper container exists; such a run
is skipped (returns `false`) before the duplicate-pid check. -/
def skipsRecovery (exists_ : Nat → Bool) (st : RecState) (id : List Char)
    (epid : Nat) : Bool :=
  !exists_ epid &&
    (match lookupId st.cs id with
     | none => false
     | some dc => dc.pid.isNone || (lookupId st.es id).isNone)

/-- `recoverContainer` (docker.cpp:587-670).  `exists_` models
`os::exists(pid)`; `waitRes` models `launchWaitProcess` on the helper
container's docker id.  The returned state reflects all mutations performed
before a possible error (the C++ arguments are references), and the result
carries the recovery decision: `error` fails the whole recover, `ok false`
skips the run, `ok (true, pid)` means the run was reattached and `pid` is
being reaped. -/
def recoverContainer (exists_ : Nat → Bool)
    (waitRes : String → Except String Nat) (id : List Char) (epid : Nat)
    (st : RecState) : RecState × Except String (Bool × Option Nat) :=
  -- Step 1: decide whether the executor must be reattached through a
  -- `docker wait` on the helper container (docker.cpp:595-624).
  if skipsRecovery exists_ st id epid then (st, Except.ok (false, none))
  else
    let reattachExecutor := !exists_ epid && (lookupId st.cs id).isSome
    -- Step 2: refuse duplicate pids (docker.cpp:626-636).
    if epid ∈ st.pids then
      (st, Except.error ("Detected duplicate pid " ++ toString epid ++
        " for container " ++ String.mk id))
    else
      -- Step 3: claim the pid, drop the container from the orphan map
      -- (docker.cpp:638-641) and reattach if needed (docker.cpp:649-662).
      let st1 : RecState :=
        { st with pids := epid :: st.pids, cs := eraseId st.cs id }
      if reattachExecutor then
        match lookupId st1.es id with
        | none => (st1, Except.error "no executor container")
        | some dc =>
          match waitRes dc.dockerId with
          | Except.error e => (st1, Except.error e)
          | Except.ok waitPid =>
            ({ st1 with es := eraseId st1.es id }, Except.ok (true, some waitPid))
      else (st1, Except.ok (true, some epid))

/-- The per-run loop of `_recover` (docker.cpp:511-569) over the latest runs
of the persisted executors: skip runs without a forked pid and completed
runs; any `recoverContainer` error fails the whole recover. -/
def recoverLoop (exists_ : Nat → Bool) (waitRes : String → Except String Nat) :
    List RunRec → RecState → Except String RecState
  | [], st => Except.ok st
  | r :: rest, st =>
    match r.forkedPid with
    | none => recoverLoop exists_ waitRes rest st
    | some epid =>
      if r.completed then recoverLoop exists_ waitRes rest st
      else
        match recoverContainer exists_ waitRes r.containerId epid st with
        | (_, Except.error e) => Except.error e
        | (st', Except.ok _) => recoverLoop exists_ waitRes rest st'

/-! ## C6: name codec round-trip -/

/-- The separator character written into generated names. -/
theorem sep_is_dot : DOCKER_NAME_SEPERATOR_C = '.' := rfl

/-- C6 counterexample: the round-trip is not universal.  For the ContainerID
`a.b` (the id itself contains the separator) the generated name is
`mesos-s.a.b`, which parses back to `a`, not to `a.b`. -/
theorem parse_makeName_cex :
    parse (makeName "s".data "a.b".data) ≠ some ("a.b".data) := by decide

/-- C6 (amended): for every slave id and ContainerID free of the separator
`.`, parsing the generated `mesos-<s>.<id>` yields the id back, the legacy
`mesos-<id>` also parses to the id, and a leading `/` never changes the
parse result of either generated form. -/
theorem parse_makeName_roundTrip (s id : List Char)
    (hs : DOCKER_NAME_SEPERATOR_C ∉ s) (hid : DOCKER_NAME_SEPERATOR_C ∉ id) :
    parse (makeName s id) = some id ∧
    parse (legacyName id) = some id ∧
    parse ('/' :: makeName s id) = parse (makeName s id) ∧
    parse ('/' :: legacyName id) = parse (legacyName id) := by
  have hmk : makeName s id =
      DOCKER_NAME_PREFIX_L ++ (s ++ DOCKER_NAME_SEPERATOR_C :: id) := by
    simp [makeName]
  have hrem : parseRemainder (s ++ DOCKER_NAME_SEPERATOR_C :: id) = some id := by
    have hmem : DOCKER_NAME_SEPERATOR_C ∈ s ++ DOCKER_NAME_SEPERATOR_C :: id := by
      simp
    have hsplit := splitOnChar_append DOCKER_NAME_SEPERATOR_C s id hs
    have hone := splitOnChar_ne_mem DOCKER_NAME_SEPERATOR_C id hid
    simp [parseRemainder, hmem, hsplit, hone]
  have hleg : parseRemainder id = some id := by
    simp [parseRemainder, hid]
  refine ⟨?_, ?_, ?_, ?_⟩
  · rw [hmk, parse_pre, hrem]
  · rw [legacyName, parse_pre, hleg]
  · rw [hmk, parse_slash_pre, parse_pre]
  · rw [legacyName, parse_slash_pre, parse_pre]

/-- Witness for `parse_makeName_roundTrip` at slave id `s1`, id `c1`. -/
theorem parse_makeName_roundTrip_witness :
    parse (makeName "s1".data "c1".data) = some ("c1".data) ∧
    parse (legacyName "c1".data) = some ("c1".data) := by
  have h := parse_makeName_roundTrip "s1".data "c1".data
    (by decide) (by decide)
  exact ⟨h.1, h.2.1⟩

/-! ## C3: parse of live Docker container names -/

/-- C3 counterexample: for the name `mesos-a.b.c` (prefix matches, the
remainder splits into 3 segments and its last non-`executor` segment is
`c`), `parse` returns the second segment `b`, not the last non-`executor`
segment `c`. -/
theorem parse_three_segments_cex :
    parse ("mesos-a.b.c".data) = some ("b".data) ∧
    (splitOnChar DOCKER_NAME_SEPERATOR_C ("a.b.c".data)).length = 3 ∧
    ((splitOnChar DOCKER_NAME_SEPERATOR_C ("a.b.c".data)).filter
        (fun seg => seg ≠ "executor".data)).getLast? = some ("c".data) ∧
    ("b".data : List Char) ≠ "c".data := by decide

/-- C3 (amended): for every name with the `mesos-` lead — or the `/mesos-`
lead the Docker API also produces — whose remainder splits into 2 or 3
segments, `parse` returns the second segment; a name with neither lead
parses to `none`; a remainder of 4 or more segments parses to `none`
(under either lead); and the recovery partition ignores every container
whose name parses to `none`. -/
theorem parse_segments_spec :
    (∀ rest : List Char,
      (splitOnChar DOCKER_NAME_SEPERATOR_C rest).length = 2 ∨
        (splitOnChar DOCKER_NAME_SEPERATOR_C rest).length = 3 →
      parse (DOCKER_NAME_PREFIX_L ++ rest) =
        (splitOnChar DOCKER_NAME_SEPERATOR_C rest).get? 1) ∧
    (∀ rest : List Char,
      (splitOnChar DOCKER_NAME_SEPERATOR_C rest).length = 2 ∨
        (splitOnChar DOCKER_NAME_SEPERATOR_C rest).length = 3 →
      parse ('/' :: (DOCKER_NAME_PREFIX_L ++ rest)) =
        (splitOnChar DOCKER_NAME_SEPERATOR_C rest).get? 1) ∧
    (∀ nm : List Char, dropPre DOCKER_NAME_PREFIX_L nm = none →
      dropPre ('/' :: DOCKER_NAME_PREFIX_L) nm = none → parse nm = none) ∧
    (∀ rest : List Char, 4 ≤ (splitOnChar DOCKER_NAME_SEPERATOR_C rest).length →
      parse (DOCKER_NAME_PREFIX_L ++ rest) = none ∧
      parse ('/' :: (DOCKER_NAME_PREFIX_L ++ rest)) = none) ∧
    (∀ (d : DockerPs) (rest : List DockerPs), parse d.name = none →
      partitionRecover (d :: rest) = partitionRecover rest) := by
  have hmem : ∀ rest : List Char,
      2 ≤ (splitOnChar DOCKER_NAME_SEPERATOR_C rest).length →
      DOCKER_NAME_SEPERATOR_C ∈ rest := by
    intro rest hlen
    by_contra hnot
    rw [splitOnChar_ne_mem _ _ hnot] at hlen
    simp only [List.length_singleton] at hlen
    omega
  have hpos : ∀ rest : List Char,
      (splitOnChar DOCKER_NAME_SEPERATOR_C rest).length = 2 ∨
        (splitOnChar DOCKER_NAME_SEPERATOR_C rest).length = 3 →
      parseRemainder rest = (splitOnChar DOCKER_NAME_SEPERATOR_C rest).get? 1 := by
    intro rest hlen
    have hm : DOCKER_NAME_SEPERATOR_C ∈ rest := hmem rest (by omega)
    rw [parseRemainder, if_pos hm]
    rcases hlen with h2 | h3
    · obtain ⟨a, b, hab⟩ := List.length_eq_two.mp h2
      rw [hab]
      rfl
    · obtain ⟨a, b, c, habc⟩ := List.length_eq_three.mp h3
      rw [habc]
      rfl
  have hneg : ∀ rest : List Char,
      4 ≤ (splitOnChar DOCKER_NAME_SEPERATOR_C rest).length →
      parseRemainder rest = none := by
    intro rest hlen
    have hm : DOCKER_NAME_SEPERATOR_C ∈ rest := hmem rest (by omega)
    rw [parseRemainder, if_pos hm]
    rcases hsp : splitOnChar DOCKER_NAME_SEPERATOR_C rest with
      _ | ⟨a, _ | ⟨b, _ | ⟨c, _ | ⟨d, tl⟩⟩⟩⟩
    all_goals
      first
        | rfl
        | (rw [hsp] at hlen; simp at hlen)
  refine ⟨?_, ?_, ?_, ?_, ?_⟩
  · intro rest hlen
    rw [parse_pre]
    exact hpos rest hlen
  · intro rest hlen
    rw [parse_slash_pre]
    exact hpos rest hlen
  · intro nm h1 h2
    simp [parse, h1, h2]
  · intro rest hlen
    exact ⟨by rw [parse_pre]; exact hneg rest hlen,
      by rw [parse_slash_pre]; exact hneg rest hlen⟩
  · intro d rest hnone
    simp [partitionRecover, hnone]

/-- Witness for `parse_segments_spec`: the generated two-segment name
`mesos-s1.c1` parses to its second segment `c1`, as does its slash-led form
`/mesos-s1.c1`; the non-Mesos name `foo` parses to `none`; the four-segment
remainder `a.b.c.d` parses to `none`; and a `docker ps` row named `foo` is
ignored by the recovery partition. -/
theorem parse_segments_spec_witness :
    parse ("mesos-s1.c1".data) =
      (splitOnChar DOCKER_NAME_SEPERATOR_C ("s1.c1".data)).get? 1 ∧
    parse ("/mesos-s1.c1".data) =
      (splitOnChar DOCKER_NAME_SEPERATOR_C ("s1.c1".data)).get? 1 ∧
    parse ("foo".data) = none ∧
    parse ("mesos-a.b.c.d".data) = none ∧
    partitionRecover [{ name := "foo".data, dockerId := "d0", pid := none }] =
      partitionRecover [] := by
  have h := parse_segments_spec
  refine ⟨?_, ?_, h.2.2.1 "foo".data (by decide) (by decide), ?_, ?_⟩
  · have := h.1 ("s1.c1".data) (Or.inl (by decide))
    simpa using this
  · have := h.2.1 ("s1.c1".data) (Or.inl (by decide))
    simpa using this
  · have := (h.2.2.2.1 ("a.b.c.d".data) (by decide)).1
    simpa using this
  · exact h.2.2.2.2 { name := "foo".data, dockerId := "d0", pid := none } []
      (by decide)

/-! ## C4: memory limits under update -/

theorem updateCg_hard_mono (r : Resources) (cm mm : Bool) (cg : CgroupState) :
    cg.memoryHardLimit ≤ (updateCg r cm mm cg).memoryHardLimit := by
  unfold updateCg
  cases r.cpus <;> cases r.mem <;> cases cm <;> cases mm <;> simp <;>
    split <;> simp <;> omega

theorem updateOp_hard_mono (s : EngineState) (id : String) (r : Resources)
    (ip : Option Nat) (cm mm : Bool) :
    s.cg.memoryHardLimit ≤ (updateOp s id r ip cm mm).cg.memoryHardLimit := by
  unfold updateOp
  cases s.registry id with
  | none => exact le_refl _
  | some c =>
    dsimp only
    split
    · exact le_refl _
    split
    · exact le_refl _
    split
    · exact le_refl _
    split
    · exact le_refl _
    split
    · exact updateCg_hard_mono ..
    split
    · exact le_refl _
    · exact updateCg_hard_mono ..

theorem applyUpdates_hard_mono (l : List UpdReq) : ∀ s : EngineState,
    s.cg.memoryHardLimit ≤ (applyUpdates s l).cg.memoryHardLimit := by
  induction l with
  | nil => intro s; exact le_refl _
  | cons u rest ih =>
    intro s
    exact le_trans (updateOp_hard_mono s u.id u.r u.inspectPid u.cpuMember u.memMember)
      (ih (updateOp s u.id u.r u.inspectPid u.cpuMember u.memMember))

/-- C4: when `__update` applies a memory resource (the container's pid is a
member of the memory hierarchy), the soft limit is written to
`max(mem, MIN_MEMORY)` unconditionally; the hard limit is written to that
value exactly when it exceeds the current one and is left alone otherwise;
and across any sequence of `update` calls the hard limit never decreases. -/
theorem memory_limits_monotone :
    (∀ (r : Resources) (cm : Bool) (cg : CgroupState) (m : Nat),
        r.mem = some m →
        (updateCg r cm true cg).memorySoftLimit = max m MIN_MEMORY ∧
        (cg.memoryHardLimit < max m MIN_MEMORY →
          (updateCg r cm true cg).memoryHardLimit = max m MIN_MEMORY) ∧
        (¬ cg.memoryHardLimit < max m MIN_MEMORY →
          (updateCg r cm true cg).memoryHardLimit = cg.memoryHardLimit)) ∧
    (∀ (s : EngineState) (l : List UpdReq),
        s.cg.memoryHardLimit ≤ (applyUpdates s l).cg.memoryHardLimit) := by
  constructor
  · intro r cm cg m hm
    unfold updateCg
    rw [hm]
    by_cases hlt : cg.memoryHardLimit < max m MIN_MEMORY
    · cases r.cpus <;> cases cm <;> simp [hlt]
    · cases r.cpus <;> cases cm <;> simp [hlt]
  · intro s l
    exact applyUpdates_hard_mono l s

/-- Witness for `memory_limits_monotone` with a 1-byte memory request on
fresh cgroup files, and a singleton update sequence. -/
theorem memory_limits_monotone_witness :
    (updateCg { cpus := none, mem := some 1 } false true
        { cpuShares := 0, memorySoftLimit := 0, memoryHardLimit := 0 }).memorySoftLimit =
      max 1 MIN_MEMORY ∧
    (initState { docker_mesos_image := none, docker_kill_orphans := false }).cg.memoryHardLimit ≤
      (applyUpdates (initState { docker_mesos_image := none, docker_kill_orphans := false })
        [{ id := "a", r := { cpus := none, mem := some 1 }, inspectPid := none,
           cpuMember := false, memMember := true }]).cg.memoryHardLimit := by
  constructor
  · exact (memory_limits_monotone.1 { cpus := none, mem := some 1 } false
      { cpuShares := 0, memorySoftLimit := 0, memoryHardLimit := 0 } 1 rfl).1
  · exact memory_limits_monotone.2
      (initState { docker_mesos_image := none, docker_kill_orphans := false })
      [{ id := "a", r := { cpus := none, mem := some 1 }, inspectPid := none,
         cpuMember := false, memMember := true }]

/-! ## Sample states for witnesses -/

/-- Flags of an agent that is not itself containerized. -/
def flagsPlain : Flags := { docker_mesos_image := none, docker_kill_orphans := false }

/-- Flags of a nested-in-Docker agent (`docker_mesos_image` set). -/
def flagsNested : Flags := { docker_mesos_image := some "img", docker_kill_orphans := false }

/-- A sample allocation. -/
def res1 : Resources := { cpus := some 1, mem := some 100 }

/-- A different sample allocation. -/
def res2 : Resources := { cpus := some 2, mem := some 200 }

/-- A RUNNING container holding `res1` with no cached pid. -/
def contRunning : Container :=
  { state := ContainerState.RUNNING, resources := res1, pid := none,
    executorPid := none, runFailed := none }

/-- An engine state with the single container `a`. -/
def oneContainer (fl : Flags) (c : Container) : EngineState :=
  { initState fl with registry := setF (fun _ => none) "a" (some c) }

/-! ## C5: the no-op cases of update -/

/-- C5 counterexample: on a nested-in-Docker agent (`docker_mesos_image`
set), `update` on a known RUNNING container with differing resources is not
a no-op: the stored resources change (docker.cpp:1129-1135 stores before the
nested-in-Docker short-circuit). -/
theorem update_nested_changes_state :
    (updateOp (oneContainer flagsNested contRunning) "a" res2 none false false).registry "a" ≠
      (oneContainer flagsNested contRunning).registry "a" := by decide

/-- C5 (amended): `update` leaves the whole engine state unchanged on an
unknown container, on a DESTROYING container, and on identical resources;
on a nested-in-Docker agent it performs no cgroup write and changes nothing
except the container's stored resources, which it overwrites with the
request; otherwise (known, differing resources, not nested, cpu or memory
present) it performs the cgroup updates of §4.7: with the cpu/memory writes
of `__update` against the current cgroup files when the pid is cached or
`docker inspect` resolves it (cached then), and with no write when the pid
cannot be resolved. -/
theorem update_noop_cases (s : EngineState) (id : String) (r : Resources)
    (ip : Option Nat) (cm mm : Bool) :
    (s.registry id = none → updateOp s id r ip cm mm = s) ∧
    (∀ c, s.registry id = some c → c.state = ContainerState.DESTROYING →
      updateOp s id r ip cm mm = s) ∧
    (∀ c, s.registry id = some c → c.resources = r →
      updateOp s id r ip cm mm = s) ∧
    (∀ c, s.registry id = some c → c.state ≠ ContainerState.DESTROYING →
      c.resources ≠ r → s.fl.docker_mesos_image.isSome →
      updateOp s id r ip cm mm =
        { s with registry := setF s.registry id (some { c with resources := r }) }) ∧
    (∀ c p, s.registry id = some c → c.state ≠ ContainerState.DESTROYING →
      c.resources ≠ r → s.fl.docker_mesos_image = none →
      ¬ (r.cpus = none ∧ r.mem = none) → c.pid = some p →
      updateOp s id r ip cm mm =
        { s with registry := setF s.registry id (some { c with resources := r }),
                 cg := updateCg r cm mm s.cg }) ∧
    (∀ c p, s.registry id = some c → c.state ≠ ContainerState.DESTROYING →
      c.resources ≠ r → s.fl.docker_mesos_image = none →
      ¬ (r.cpus = none ∧ r.mem = none) → c.pid = none → ip = some p →
      updateOp s id r ip cm mm =
        { s with registry := setF s.registry id
                   (some { c with resources := r, pid := some p }),
                 cg := updateCg r cm mm s.cg }) ∧
    (∀ c, s.registry id = some c → c.state ≠ ContainerState.DESTROYING →
      c.resources ≠ r → s.fl.docker_mesos_image = none →
      ¬ (r.cpus = none ∧ r.mem = none) → c.pid = none → ip = none →
      updateOp s id r ip cm mm =
        { s with registry := setF s.registry id (some { c with resources := r }) }) := by
  refine ⟨?_, ?_, ?_, ?_, ?_, ?_, ?_⟩
  · intro h
    simp [updateOp, h]
  · intro c hc hdes
    simp [updateOp, hc, hdes]
  · intro c hc hres
    by_cases hdes : c.state = ContainerState.DESTROYING
    · simp [updateOp, hc, hdes]
    · simp [updateOp, hc, hdes, hres]
  · intro c hc hdes hres himg
    simp [updateOp, hc, hdes, hres, himg]
  · intro c p hc hdes hres himg hsup hpid
    simp [updateOp, hc, hdes, hres, himg, hsup, hpid]
  · intro c p hc hdes hres himg hsup hpid hip
    have h1 : updateOp s id r ip cm mm =
        { s with
          registry :=
            setF (setF s.registry id (some { c with resources := r })) id
              (some { c with resources := r, pid := some p }),
          cg := updateCg r cm mm s.cg } := by
      simp [updateOp, hc, hdes, hres, himg, hsup, hpid, hip]
    rw [h1, setF_setF]
  · intro c hc hdes hres himg hsup hpid hip
    simp [updateOp, hc, hdes, hres, himg, hsup, hpid, hip]

/-- Witness for `update_noop_cases` on the sample states: unknown id `b`,
a DESTROYING container, identical resources, the nested-in-Docker
store-only case, and the three §4.7 branches (cached pid, inspected pid,
unresolvable pid). -/
theorem update_noop_cases_witness :
    updateOp (oneContainer flagsPlain contRunning) "b" res2 none false false =
      oneContainer flagsPlain contRunning ∧
    updateOp (oneContainer flagsPlain { contRunning with state := ContainerState.DESTROYING })
        "a" res2 none false false =
      oneContainer flagsPlain { contRunning with state := ContainerState.DESTROYING } ∧
    updateOp (oneContainer flagsPlain contRunning) "a" res1 none false false =
      oneContainer flagsPlain contRunning ∧
    updateOp (oneContainer flagsNested contRunning) "a" res2 none false false =
      { oneContainer flagsNested contRunning with
        registry := setF (oneContainer flagsNested contRunning).registry "a"
          (some { contRunning with resources := res2 }) } ∧
    updateOp (oneContainer flagsPlain { contRunning with pid := some 7 })
        "a" res2 none true true =
      { oneContainer flagsPlain { contRunning with pid := some 7 } with
        registry := setF (oneContainer flagsPlain
            { contRunning with pid := some 7 }).registry "a"
          (some { contRunning with pid := some 7, resources := res2 }),
        cg := updateCg res2 true true
          (oneContainer flagsPlain { contRunning with pid := some 7 }).cg } ∧
    updateOp (oneContainer flagsPlain contRunning) "a" res2 (some 9) true true =
      { oneContainer flagsPlain contRunning with
        registry := setF (oneContainer flagsPlain contRunning).registry "a"
          (some { contRunning with resources := res2, pid := some 9 }),
        cg := updateCg res2 true true (oneContainer flagsPlain contRunning).cg } ∧
    updateOp (oneContainer flagsPlain contRunning) "a" res2 none true true =
      { oneContainer flagsPlain contRunning with
        registry := setF (oneContainer flagsPlain contRunning).registry "a"
          (some { contRunning with resources := res2 }) } := by
  refine ⟨?_, ?_, ?_, ?_, ?_, ?_, ?_⟩
  · exact (update_noop_cases (oneContainer flagsPlain contRunning) "b" res2
      none false false).1 (by decide)
  · exact (update_noop_cases _ "a" res2 none false false).2.1
      { contRunning with state := ContainerState.DESTROYING } (by decide) rfl
  · exact (update_noop_cases _ "a" res1 none false false).2.2.1 contRunning
      (by decide) rfl
  · exact (update_noop_cases _ "a" res2 none false false).2.2.2.1 contRunning
      (by decide) (by decide) (by decide) rfl
  · exact (update_noop_cases _ "a" res2 none true true).2.2.2.2.1
      { contRunning with pid := some 7 } 7 (by decide) (by decide) (by decide)
      rfl (by decide) rfl
  · exact (update_noop_cases _ "a" res2 (some 9) true true).2.2.2.2.2.1
      contRunning 9 (by decide) (by decide) (by decide) rfl (by decide) rfl rfl
  · exact (update_noop_cases _ "a" res2 none true true).2.2.2.2.2.2
      contRunning (by decide) (by decide) (by decide) rfl (by decide) rfl rfl

/-! ## C10: destroy of an unknown container -/

/-- C10: `destroy` on a ContainerID outside the registry returns without
touching the engine state: no registry change, no termination promise
fulfilled (docker.cpp:1417-1420). -/
theorem destroy_unknown_noop (s : EngineState) (id : String) (killed : Bool)
    (h : s.registry id = none) : destroyOp s id killed = s := by
  simp [destroyOp, h]

/-- Witness for `destroy_unknown_noop` on the empty registry. -/
theorem destroy_unknown_noop_witness :
    destroyOp (initState flagsPlain) "a" true = initState flagsPlain :=
  destroy_unknown_noop (initState flagsPlain) "a" true rfl

/-! ## C9: update stores resources for usage -/

/-- C8: `launch` fails with "Container already started" on a duplicate
ContainerID (checked first, docker.cpp:683-685 and 964-966); when the id is
unknown and the request's container info is absent or its type is not
DOCKER, it returns `false` — a successful result, not a failure — and does
not insert a Container record (the state is unchanged). -/
theorem launch_front_results (s : EngineState) (id : String)
    (info : Option ContainerInfo) (createRes : Except String Resources) :
    ((s.registry id).isSome →
      launchFront s id info createRes =
        (s, LaunchOutcome.failure "Container already started")) ∧
    (s.registry id = none → info = none →
      launchFront s id info createRes = (s, LaunchOutcome.result false)) ∧
    (∀ ci, s.registry id = none → info = some ci → ci.ctype ≠ CType.DOCKER →
      launchFront s id info createRes = (s, LaunchOutcome.result false)) := by
  refine ⟨?_, ?_, ?_⟩
  · intro h
    simp [launchFront, h]
  · intro h hinfo
    simp [launchFront, h, hinfo]
  · intro ci h hinfo htype
    simp [launchFront, h, hinfo, htype]

/-- Witness for `launch_front_results`: a duplicate id fails, a request with
no container info returns `false`, and a MESOS-typed request returns
`false`, each leaving the state unchanged. -/
theorem launch_front_results_witness :
    launchFront (oneContainer flagsPlain contRunning) "a"
        (some { ctype := CType.DOCKER }) (Except.ok res1) =
      (oneContainer flagsPlain contRunning,
        LaunchOutcome.failure "Container already started") ∧
    launchFront (initState flagsPlain) "b" none (Except.ok res1) =
      (initState flagsPlain, LaunchOutcome.result false) ∧
    launchFront (initState flagsPlain) "b" (some { ctype := CType.MESOS })
        (Except.ok res1) = (initState flagsPlain, LaunchOutcome.result false) := by
  refine ⟨?_, ?_, ?_⟩
  · exact (launch_front_results (oneContainer flagsPlain contRunning) "a"
      (some { ctype := CType.DOCKER }) (Except.ok res1)).1 (by decide)
  · exact (launch_front_results (initState flagsPlain) "b" none
      (Except.ok res1)).2.1 rfl rfl
  · exact (launch_front_results (initState flagsPlain) "b"
      (some { ctype := CType.MESOS }) (Except.ok res1)).2.2
      { ctype := CType.MESOS } rfl rfl (by decide)

/-! ## C7: duplicate pids during recovery -/

/-- C7: when a run being recovered (one that passes the early-skip checks of
`recoverContainer`) carries an executor pid already claimed by an earlier
recovery, `recoverContainer` returns the duplicate-pid error without mutating
the recovery state, and the per-run loop of `_recover` turns any such error
into a failure of the whole recover; otherwise the pid is added to the
claimed set. -/
theorem recover_duplicate_pid :
    (∀ (exists_ : Nat → Bool) (waitRes : String → Except String Nat)
        (id : List Char) (epid : Nat) (st : RecState),
      skipsRecovery exists_ st id epid = false →
      epid ∈ st.pids →
      recoverContainer exists_ waitRes id epid st =
        (st, Except.error ("Detected duplicate pid " ++ toString epid ++
          " for container " ++ String.mk id))) ∧
    (∀ (exists_ : Nat → Bool) (waitRes : String → Except String Nat)
        (id : List Char) (epid : Nat) (st : RecState),
      skipsRecovery exists_ st id epid = false →
      epid ∉ st.pids →
      epid ∈ (recoverContainer exists_ waitRes id epid st).1.pids) ∧
    (∀ (exists_ : Nat → Bool) (waitRes : String → Except String Nat)
        (r : RunRec) (rest : List RunRec) (st : RecState) (epid : Nat)
        (e : String),
      r.forkedPid = some epid → r.completed = false →
      (recoverContainer exists_ waitRes r.containerId epid st).2 =
        Except.error e →
      recoverLoop exists_ waitRes (r :: rest) st = Except.error e) := by
  refine ⟨?_, ?_, ?_⟩
  · intro exists_ waitRes id epid st hskip hmem
    simp [recoverContainer, hskip, hmem]
  · intro exists_ waitRes id epid st hskip hmem
    unfold recoverContainer
    rw [hskip]
    simp only [Bool.false_eq_true, if_false, hmem, if_neg, ite_false]
    split
    · split
      · simp
      · split
        · simp
        · simp
    · simp
  · intro exists_ waitRes r rest st epid e hf hc herr
    rcases hrc : recoverContainer exists_ waitRes r.containerId epid st with ⟨st', res⟩
    rw [hrc] at herr
    simp only at herr
    simp [recoverLoop, hf, hc, hrc, herr]

/-- Witness for `recover_duplicate_pid`: with claimed pids `[5]` and a live
forked pid (so no early skip), recovering pid 5 is the duplicate error and
fails the loop, while recovering pid 6 claims it. -/
theorem recover_duplicate_pid_witness :
    recoverContainer (fun _ => true) (fun _ => Except.error "no wait")
        "c".data 5 { cs := [], es := [], pids := [5] } =
      ({ cs := [], es := [], pids := [5] },
        Except.error ("Detected duplicate pid " ++ toString 5 ++
          " for container " ++ String.mk "c".data)) ∧
    5 ∈ (recoverContainer (fun _ => true) (fun _ => Except.error "no wait")
        "c".data 5 { cs := [], es := [], pids := [] }).1.pids ∧
    recoverLoop (fun _ => true) (fun _ => Except.error "no wait")
        [{ containerId := "c".data, forkedPid := some 5, completed := false }]
        { cs := [], es := [], pids := [5] } =
      Except.error ("Detected duplicate pid " ++ toString 5 ++
        " for container " ++ String.mk "c".data) := by
  refine ⟨?_, ?_, ?_⟩
  · exact recover_duplicate_pid.1 (fun _ => true) (fun _ => Except.error "no wait")
      "c".data 5 { cs := [], es := [], pids := [5] } (by decide) (by decide)
  · exact recover_duplicate_pid.2.1 (fun _ => true) (fun _ => Except.error "no wait")
      "c".data 5 { cs := [], es := [], pids := [] } (by decide) (by decide)
  · exact recover_duplicate_pid.2.2 (fun _ => true) (fun _ => Except.error "no wait")
      { containerId := "c".data, forkedPid := some 5, completed := false } []
      { cs := [], es := [], pids := [5] } 5 _ rfl rfl rfl


/-! ## The termination invariant (C1, C2) -/

theorem setF_some_not_none (f : String → Option Container) (id' id : String)
    (c : Container) : setF f id' (some c) id = none → f id = none := by
  intro h
  by_cases he : id = id'
  · rw [he, setF_same] at h
    exact absurd h (by simp)
  · rwa [setF_other f id' id (some c) he] at h

/-- The reachable-state invariant: every termination promise is fulfilled at
most once, the ghost counter agrees with the promise, and a registered
container's promise is still unfulfilled. -/
def EngineInv (s : EngineState) : Prop :=
  ∀ id, s.tcount id ≤ 1 ∧ (s.term id = PromiseState.unset ↔ s.tcount id = 0) ∧
    ((s.registry id).isSome → s.tcount id = 0)

theorem inv_replace (s s2 : EngineState) (id' : String) (c : Container)
    (h : EngineInv s) (h0 : s.tcount id' = 0)
    (hreg : s2.registry = setF s.registry id' (some c))
    (hterm : s2.term = s.term) (htc : s2.tcount = s.tcount) : EngineInv s2 := by
  intro id
  rcases h id with ⟨h1, h2, h3⟩
  refine ⟨htc ▸ h1, htc ▸ hterm ▸ h2, ?_⟩
  intro hsome
  rw [htc]
  by_cases he : id = id'
  · exact he ▸ h0
  · rw [hreg, setF_other s.registry id' id (some c) he] at hsome
    exact h3 hsome

theorem inv_remove (s s2 : EngineState) (id' : String) (t : PromiseState)
    (h : EngineInv s)
    (hreg : s2.registry = s.registry) (hterm : s2.term = s.term)
    (htc : s2.tcount = s.tcount)
    (ht : t ≠ PromiseState.unset) (h0 : s.tcount id' = 0) :
    EngineInv (removeWith s2 id' t) := by
  intro id
  rcases h id with ⟨h1, h2, h3⟩
  unfold removeWith
  by_cases he : id = id'
  · subst he
    dsimp only
    rw [hterm, htc, hreg, setF_same, setF_same, setF_same, h0]
    refine ⟨by omega, ?_, by simp⟩
    constructor
    · intro hu
      exact absurd hu ht
    · intro hz
      omega
  · dsimp only
    rw [hterm, htc, hreg, setF_other _ _ _ _ he, setF_other _ _ _ _ he,
      setF_other _ _ _ _ he]
    exact ⟨h1, h2, h3⟩

theorem inv_step (s : EngineState) (e : Event) (h : EngineInv s) :
    EngineInv (step s e) := by
  cases e with
  | launchIns id r =>
    simp only [step]
    unfold launchInsOp
    split
    · next hg => exact inv_replace s _ id (freshContainer r) h hg.2 rfl rfl rfl
    · exact h
  | recoverIns id =>
    simp only [step]
    unfold recoverInsOp
    split
    · next hg => exact inv_replace s _ id _ h hg.2 rfl rfl rfl
    · exact h
  | fetchOk id =>
    simp only [step]
    unfold fetchOkOp
    cases hr : s.registry id with
    | none => exact h
    | some c =>
      exact inv_replace s _ id _ h ((h id).2.2 (by rw [hr]; rfl)) rfl rfl rfl
  | pullOk id =>
    simp only [step]
    unfold pullOkOp launchAfterPull
    cases hr : s.registry id with
    | none => exact h
    | some c =>
      exact inv_replace s _ id _ h ((h id).2.2 (by rw [hr]; rfl)) rfl rfl rfl
  | runFail id msg =>
    simp only [step]
    unfold runFailOp
    cases hr : s.registry id with
    | none => exact h
    | some c =>
      dsimp only
      split
      · exact inv_replace s _ id _ h ((h id).2.2 (by rw [hr]; rfl)) rfl rfl rfl
      · exact h
  | destroy id killed =>
    simp only [step]
    unfold destroyOp
    cases hr : s.registry id with
    | none => exact h
    | some c =>
      have h0 : s.tcount id = 0 := (h id).2.2 (by rw [hr]; rfl)
      dsimp only
      cases hrf : c.runFailed with
      | some m => exact inv_remove s s id _ h rfl rfl rfl (by simp) h0
      | none =>
        dsimp only
        split
        · exact h
        split
        · exact inv_remove s s id _ h rfl rfl rfl (by simp) h0
        split
        · exact inv_remove s _ id _ h rfl rfl rfl (by simp) h0
        · exact inv_replace s _ id _ h h0 rfl rfl rfl
  | stopFailed id msg =>
    simp only [step]
    unfold stopFailedOp
    cases hr : s.registry id with
    | none => exact h
    | some c =>
      have h0 : s.tcount id = 0 := (h id).2.2 (by rw [hr]; rfl)
      dsimp only
      split
      · exact inv_remove s s id _ h rfl rfl rfl (by simp) h0
      · exact h
  | teardown id killed status =>
    simp only [step]
    unfold teardownOp
    cases hr : s.registry id with
    | none => exact h
    | some c =>
      have h0 : s.tcount id = 0 := (h id).2.2 (by rw [hr]; rfl)
      dsimp only
      split
      · exact inv_remove s s id _ h rfl rfl rfl (by simp) h0
      · exact h
  | updateRes u =>
    simp only [step]
    unfold updateOp
    cases hr : s.registry u.id with
    | none => exact h
    | some c =>
      have h0 : s.tcount u.id = 0 := (h u.id).2.2 (by rw [hr]; rfl)
      dsimp only
      split
      · exact h
      split
      · exact h
      split
      · exact inv_replace s _ u.id _ h h0 rfl rfl rfl
      split
      · exact inv_replace s _ u.id _ h h0 rfl rfl rfl
      split
      · exact inv_replace s _ u.id _ h h0 rfl rfl rfl
      split
      · exact inv_replace s _ u.id _ h h0 rfl rfl rfl
      · exact inv_replace s _ u.id _ h h0 (setF_setF s.registry u.id _ _) rfl rfl
  | setPid id p =>
    simp only [step]
    unfold setPidOp
    cases hr : s.registry id with
    | none => exact h
    | some c =>
      exact inv_replace s _ id _ h ((h id).2.2 (by rw [hr]; rfl)) rfl rfl rfl

theorem inv_runTrace (evs : List Event) : ∀ s : EngineState, EngineInv s →
    EngineInv (runTrace s evs) := by
  induction evs with
  | nil =>
    intro s h
    exact h
  | cons e rest ih =>
    intro s h
    exact ih (step s e) (inv_step s e h)

theorem inv_init (fl : Flags) : EngineInv (initState fl) := by
  intro id
  exact ⟨by simp [initState], by simp [initState], by simp [initState]⟩

theorem removal_same_id (s s2 : EngineState) (id' id : String)
    (t : PromiseState) (hreg : s2.registry = s.registry)
    (hsome : (s.registry id).isSome)
    (hnone : (removeWith s2 id' t).registry id = none) : id = id' := by
  by_cases he : id = id'
  · exact he
  · exfalso
    have hne : (removeWith s2 id' t).registry id = s.registry id := by
      unfold removeWith
      dsimp only
      rw [setF_other _ _ _ _ he, hreg]
    rw [hne] at hnone
    rw [hnone] at hsome
    simp at hsome

theorem removal_payload (s s2 : EngineState) (id : String) (t : PromiseState)
    (hinv : EngineInv s) (htc : s2.tcount = s.tcount)
    (hsome : (s.registry id).isSome) :
    s.term id = PromiseState.unset ∧
    (removeWith s2 id t).term id = t ∧
    (removeWith s2 id t).tcount id = 1 := by
  have h0 : s.tcount id = 0 := (hinv id).2.2 hsome
  refine ⟨(hinv id).2.1.mpr h0, ?_, ?_⟩
  · unfold removeWith
    dsimp only
    rw [setF_same]
  · unfold removeWith
    dsimp only
    rw [setF_same, htc, h0]

theorem step_removal (s : EngineState) (e : Event) (id : String)
    (hinv : EngineInv s) (hsome : (s.registry id).isSome)
    (hnone : (step s e).registry id = none) :
    destroysId e id = true ∧ s.term id = PromiseState.unset ∧
    (step s e).term id ≠ PromiseState.unset ∧ (step s e).tcount id = 1 := by
  have hcontra : s.registry id = none → False := by
    intro hn
    rw [hn] at hsome
    simp at hsome
  cases e with
  | launchIns id' r =>
    exfalso
    simp only [step] at hnone
    unfold launchInsOp at hnone
    split at hnone
    · exact hcontra (setF_some_not_none _ _ _ _ hnone)
    · exact hcontra hnone
  | recoverIns id' =>
    exfalso
    simp only [step] at hnone
    unfold recoverInsOp at hnone
    split at hnone
    · exact hcontra (setF_some_not_none _ _ _ _ hnone)
    · exact hcontra hnone
  | fetchOk id' =>
    exfalso
    simp only [step] at hnone
    unfold fetchOkOp at hnone
    cases hr : s.registry id' with
    | none =>
      rw [hr] at hnone
      exact hcontra hnone
    | some c =>
      rw [hr] at hnone
      dsimp only at hnone
      exact hcontra (setF_some_not_none _ _ _ _ hnone)
  | pullOk id' =>
    exfalso
    simp only [step] at hnone
    unfold pullOkOp launchAfterPull at hnone
    cases hr : s.registry id' with
    | none =>
      rw [hr] at hnone
      exact hcontra hnone
    | some c =>
      rw [hr] at hnone
      dsimp only at hnone
      exact hcontra (setF_some_not_none _ _ _ _ hnone)
  | runFail id' msg =>
    exfalso
    simp only [step] at hnone
    unfold runFailOp at hnone
    cases hr : s.registry id' with
    | none =>
      rw [hr] at hnone
      exact hcontra hnone
    | some c =>
      rw [hr] at hnone
      dsimp only at hnone
      split at hnone
      · exact hcontra (setF_some_not_none _ _ _ _ hnone)
      · exact hcontra hnone
  | setPid id' p =>
    exfalso
    simp only [step] at hnone
    unfold setPidOp at hnone
    cases hr : s.registry id' with
    | none =>
      rw [hr] at hnone
      exact hcontra hnone
    | some c =>
      rw [hr] at hnone
      dsimp only at hnone
      exact hcontra (setF_some_not_none _ _ _ _ hnone)
  | updateRes u =>
    exfalso
    simp only [step] at hnone
    unfold updateOp at hnone
    cases hr : s.registry u.id with
    | none =>
      rw [hr] at hnone
      exact hcontra hnone
    | some c =>
      rw [hr] at hnone
      dsimp only at hnone
      split at hnone
      · exact hcontra hnone
      split at hnone
      · exact hcontra hnone
      split at hnone
      · exact hcontra (setF_some_not_none _ _ _ _ hnone)
      split at hnone
      · exact hcontra (setF_some_not_none _ _ _ _ hnone)
      split at hnone
      · exact hcontra (setF_some_not_none _ _ _ _ hnone)
      split at hnone
      · exact hcontra (setF_some_not_none _ _ _ _ hnone)
      · exact hcontra
          (setF_some_not_none _ _ _ _ (setF_some_not_none _ _ _ _ hnone))
  | destroy id' killed =>
    simp only [step] at hnone ⊢
    unfold destroyOp at hnone ⊢
    cases hr : s.registry id' with
    | none =>
      exfalso
      rw [hr] at hnone
      exact hcontra hnone
    | some c =>
      rw [hr] at hnone
      dsimp only at hnone ⊢
      cases hrf : c.runFailed with
      | some m =>
        rw [hrf] at hnone
        dsimp only at hnone ⊢
        have he : id = id' := removal_same_id s s id' id _ rfl hsome hnone
        subst he
        have hp := removal_payload s s id (PromiseState.value
          { killed := killed, message := "Failed to run container: " ++ m,
            status := none }) hinv rfl hsome
        exact ⟨by simp [destroysId], hp.1, by rw [hp.2.1]; simp, hp.2.2⟩
      | none =>
        rw [hrf] at hnone
        dsimp only at hnone ⊢
        by_cases hdes : c.state = ContainerState.DESTROYING
        · exfalso
          rw [if_pos hdes] at hnone
          exact hcontra hnone
        rw [if_neg hdes] at hnone ⊢
        by_cases hfet : c.state = ContainerState.FETCHING
        · rw [if_pos hfet] at hnone ⊢
          have he : id = id' := removal_same_id s s id' id _ rfl hsome hnone
          subst he
          have hp := removal_payload s s id (PromiseState.value
            { killed := killed, message := "Container destroyed while fetching",
              status := none }) hinv rfl hsome
          exact ⟨by simp [destroysId], hp.1, by rw [hp.2.1]; simp, hp.2.2⟩
        rw [if_neg hfet] at hnone ⊢
        by_cases hpul : c.state = ContainerState.PULLING
        · rw [if_pos hpul] at hnone ⊢
          have he : id = id' :=
            removal_same_id s
              { s with pullDiscarded := setF s.pullDiscarded id' true } id' id
              (PromiseState.value
                { killed := killed,
                  message := "Container destroyed while pulling image",
                  status := none }) rfl hsome hnone
          subst he
          have hp := removal_payload s
            { s with pullDiscarded := setF s.pullDiscarded id true } id
            (PromiseState.value
              { killed := killed,
                message := "Container destroyed while pulling image",
                status := none }) hinv rfl hsome
          exact ⟨by simp [destroysId], hp.1, by rw [hp.2.1]; simp, hp.2.2⟩
        · exfalso
          rw [if_neg hpul] at hnone
          exact hcontra (setF_some_not_none _ _ _ _ hnone)
  | stopFailed id' msg =>
    simp only [step] at hnone ⊢
    unfold stopFailedOp at hnone ⊢
    cases hr : s.registry id' with
    | none =>
      exfalso
      rw [hr] at hnone
      exact hcontra hnone
    | some c =>
      rw [hr] at hnone
      dsimp only at hnone ⊢
      by_cases hdes : c.state = ContainerState.DESTROYING
      · rw [if_pos hdes] at hnone ⊢
        have he : id = id' := removal_same_id s s id' id _ rfl hsome hnone
        subst he
        have hp := removal_payload s s id (PromiseState.failedWith
          ("Failed to kill the Docker container: " ++ msg)) hinv rfl hsome
        exact ⟨by simp [destroysId], hp.1, by rw [hp.2.1]; simp, hp.2.2⟩
      · exfalso
        rw [if_neg hdes] at hnone
        exact hcontra hnone
  | teardown id' killed status =>
    simp only [step] at hnone ⊢
    unfold teardownOp at hnone ⊢
    cases hr : s.registry id' with
    | none =>
      exfalso
      rw [hr] at hnone
      exact hcontra hnone
    | some c =>
      rw [hr] at hnone
      dsimp only at hnone ⊢
      by_cases hdes : c.state = ContainerState.DESTROYING
      · rw [if_pos hdes] at hnone ⊢
        have he : id = id' := removal_same_id s s id' id _ rfl hsome hnone
        subst he
        have hp := removal_payload s s id (PromiseState.value
          { killed := killed,
            message := if killed = true then "Container killed"
              else "Container terminated",
            status := status }) hinv rfl hsome
        exact ⟨by simp [destroysId], hp.1, by rw [hp.2.1]; simp, hp.2.2⟩
      · exfalso
        rw [if_neg hdes] at hnone
        exact hcontra hnone

/-- C1: starting from the empty engine, along any event trace, every
ContainerID's termination promise is fulfilled (set or failed) at most once
(`tcount ≤ 1`); and whenever a step removes a registered container from the
registry, that step is a destroy-driven teardown event (`destroy` itself on
the run-failed/FETCHING/PULLING paths, the failed-stop path `__destroy`, or
the normal RUNNING teardown `___destroy`), the promise was unfulfilled
before the step, and the step fulfils it — so removal happens only after
(and together with) the unique fulfilment of `termination`. -/
theorem termination_once_removal_by_destroy (fl : Flags) (evs : List Event)
    (id : String) :
    (runTrace (initState fl) evs).tcount id ≤ 1 ∧
    ∀ e : Event,
      ((runTrace (initState fl) evs).registry id).isSome →
      (step (runTrace (initState fl) evs) e).registry id = none →
      destroysId e id = true ∧
      (runTrace (initState fl) evs).term id = PromiseState.unset ∧
      (step (runTrace (initState fl) evs) e).term id ≠ PromiseState.unset ∧
      (step (runTrace (initState fl) evs) e).tcount id = 1 := by
  have hinv : EngineInv (runTrace (initState fl) evs) :=
    inv_runTrace evs (initState fl) (inv_init fl)
  exact ⟨(hinv id).1,
    fun e hsome hnone => step_removal _ e id hinv hsome hnone⟩

/-- Witness for `termination_once_removal_by_destroy`: after launching `a`,
destroying it removes it and fulfils its termination once. -/
theorem termination_once_removal_by_destroy_witness :
    ((runTrace (initState flagsPlain) [Event.launchIns "a" res1]).registry "a").isSome ∧
    destroysId (Event.destroy "a" true) "a" = true ∧
    (step (runTrace (initState flagsPlain) [Event.launchIns "a" res1])
      (Event.destroy "a" true)).tcount "a" = 1 := by
  have h := (termination_once_removal_by_destroy flagsPlain
      [Event.launchIns "a" res1] "a").2 (Event.destroy "a" true)
    (by decide) (by decide)
  exact ⟨by decide, h.1, h.2.2.2⟩

/-! ## C2: destroy while pulling -/

theorem step_gone (s : EngineState) (e : Event) (id : String)
    (hnone : s.registry id = none) (htc : s.tcount id ≠ 0) :
    (step s e).registry id = none ∧ (step s e).ranRun id = s.ranRun id ∧
    (step s e).tcount id = s.tcount id := by
  cases e with
  | launchIns id' r =>
    simp only [step]
    unfold launchInsOp
    by_cases he : id = id'
    · subst he
      split
      · next hg => exact absurd hg.2 htc
      · exact ⟨hnone, rfl, rfl⟩
    · split
      · exact ⟨by dsimp only; rw [setF_other _ _ _ _ he]; exact hnone, rfl, rfl⟩
      · exact ⟨hnone, rfl, rfl⟩
  | recoverIns id' =>
    simp only [step]
    unfold recoverInsOp
    by_cases he : id = id'
    · subst he
      split
      · next hg => exact absurd hg.2 htc
      · exact ⟨hnone, rfl, rfl⟩
    · split
      · exact ⟨by dsimp only; rw [setF_other _ _ _ _ he]; exact hnone, rfl, rfl⟩
      · exact ⟨hnone, rfl, rfl⟩
  | fetchOk id' =>
    simp only [step]
    unfold fetchOkOp
    by_cases he : id = id'
    · subst he
      rw [hnone]
      exact ⟨hnone, rfl, rfl⟩
    · cases hr : s.registry id' with
      | none => exact ⟨hnone, rfl, rfl⟩
      | some c =>
        exact ⟨by dsimp only; rw [setF_other _ _ _ _ he]; exact hnone, rfl, rfl⟩
  | pullOk id' =>
    simp only [step]
    unfold pullOkOp launchAfterPull
    by_cases he : id = id'
    · subst he
      rw [hnone]
      exact ⟨hnone, rfl, rfl⟩
    · cases hr : s.registry id' with
      | none => exact ⟨hnone, rfl, rfl⟩
      | some c =>
        refine ⟨by dsimp only; rw [setF_other _ _ _ _ he]; exact hnone, ?_, rfl⟩
        dsimp only
        rw [setF_other _ _ _ _ he]
  | runFail id' msg =>
    simp only [step]
    unfold runFailOp
    by_cases he : id = id'
    · subst he
      rw [hnone]
      exact ⟨hnone, rfl, rfl⟩
    · cases hr : s.registry id' with
      | none => exact ⟨hnone, rfl, rfl⟩
      | some c =>
        dsimp only
        split
        · exact ⟨by dsimp only; rw [setF_other _ _ _ _ he]; exact hnone, rfl, rfl⟩
        · exact ⟨hnone, rfl, rfl⟩
  | destroy id' killed =>
    simp only [step]
    unfold destroyOp removeWith
    by_cases he : id = id'
    · subst he
      rw [hnone]
      exact ⟨hnone, rfl, rfl⟩
    · cases hr : s.registry id' with
      | none => exact ⟨hnone, rfl, rfl⟩
      | some c =>
        dsimp only
        split
        · exact ⟨by dsimp only; rw [setF_other _ _ _ _ he]; exact hnone, rfl,
            by dsimp only; rw [setF_other _ _ _ _ he]⟩
        split
        · exact ⟨hnone, rfl, rfl⟩
        split
        · exact ⟨by dsimp only; rw [setF_other _ _ _ _ he]; exact hnone, rfl,
            by dsimp only; rw [setF_other _ _ _ _ he]⟩
        split
        · exact ⟨by dsimp only; rw [setF_other _ _ _ _ he]; exact hnone, rfl,
            by dsimp only; rw [setF_other _ _ _ _ he]⟩
        · exact ⟨by dsimp only; rw [setF_other _ _ _ _ he]; exact hnone, rfl, rfl⟩
  | stopFailed id' msg =>
    simp only [step]
    unfold stopFailedOp removeWith
    by_cases he : id = id'
    · subst he
      rw [hnone]
      exact ⟨hnone, rfl, rfl⟩
    · cases hr : s.registry id' with
      | none => exact ⟨hnone, rfl, rfl⟩
      | some c =>
        dsimp only
        split
        · exact ⟨by dsimp only; rw [setF_other _ _ _ _ he]; exact hnone, rfl,
            by dsimp only; rw [setF_other _ _ _ _ he]⟩
        · exact ⟨hnone, rfl, rfl⟩
  | teardown id' killed status =>
    simp only [step]
    unfold teardownOp removeWith
    by_cases he : id = id'
    · subst he
      rw [hnone]
      exact ⟨hnone, rfl, rfl⟩
    · cases hr : s.registry id' with
      | none => exact ⟨hnone, rfl, rfl⟩
      | some c =>
        dsimp only
        split
        · exact ⟨by dsimp only; rw [setF_other _ _ _ _ he]; exact hnone, rfl,
            by dsimp only; rw [setF_other _ _ _ _ he]⟩
        · exact ⟨hnone, rfl, rfl⟩
  | updateRes u =>
    simp only [step]
    unfold updateOp
    by_cases he : id = u.id
    · subst he
      rw [hnone]
      exact ⟨hnone, rfl, rfl⟩
    · cases hr : s.registry u.id with
      | none => exact ⟨hnone, rfl, rfl⟩
      | some c =>
        dsimp only
        split
        · exact ⟨hnone, rfl, rfl⟩
        split
        · exact ⟨hnone, rfl, rfl⟩
        split
        · exact ⟨by dsimp only; rw [setF_other _ _ _ _ he]; exact hnone, rfl, rfl⟩
        split
        · exact ⟨by dsimp only; rw [setF_other _ _ _ _ he]; exact hnone, rfl, rfl⟩
        split
        · exact ⟨by dsimp only; rw [setF_other _ _ _ _ he]; exact hnone, rfl, rfl⟩
        split
        · exact ⟨by dsimp only; rw [setF_other _ _ _ _ he]; exact hnone, rfl, rfl⟩
        · refine ⟨?_, rfl, rfl⟩
          dsimp only
          rw [setF_other _ _ _ _ he, setF_other _ _ _ _ he]
          exact hnone
  | setPid id' p =>
    simp only [step]
    unfold setPidOp
    by_cases he : id = id'
    · subst he
      rw [hnone]
      exact ⟨hnone, rfl, rfl⟩
    · cases hr : s.registry id' with
      | none => exact ⟨hnone, rfl, rfl⟩
      | some c =>
        exact ⟨by dsimp only; rw [setF_other _ _ _ _ he]; exact hnone, rfl, rfl⟩

theorem runTrace_gone (evs : List Event) : ∀ (s : EngineState) (id : String),
    s.registry id = none → s.tcount id ≠ 0 →
    (runTrace s evs).registry id = none ∧
    (runTrace s evs).ranRun id = s.ranRun id ∧
    (runTrace s evs).tcount id = s.tcount id := by
  induction evs with
  | nil =>
    intro s id hnone htc
    exact ⟨hnone, rfl, rfl⟩
  | cons e rest ih =>
    intro s id hnone htc
    rcases step_gone s e id hnone htc with ⟨h1, h2, h3⟩
    rcases ih (step s e) id h1 (by rw [h3]; exact htc) with ⟨g1, g2, g3⟩
    refine ⟨g1, ?_, ?_⟩
    · show (runTrace (step s e) rest).ranRun id = s.ranRun id
      rw [g2, h2]
    · show (runTrace (step s e) rest).tcount id = s.tcount id
      rw [g3, h3]

/-- C2: `destroy(id, killed=true)` on a container in PULLING state (whose
`docker run` was never issued) discards the in-flight pull, sets the
termination promise to killed=true with message "Container destroyed while
pulling image", and removes the record; the pull-success continuation
`__launch` then observes the container absent and fails with "Container was
destroyed while pulling image" without touching the state, and along any
subsequent event trace no `docker run` is ever issued for that id. -/
theorem destroy_while_pulling (s : EngineState) (id : String) (c : Container)
    (hc : s.registry id = some c) (hst : c.state = ContainerState.PULLING)
    (hrf : c.runFailed = none) (hrr : s.ranRun id = false) :
    (destroyOp s id true).pullDiscarded id = true ∧
    (destroyOp s id true).term id = PromiseState.value
      { killed := true, message := "Container destroyed while pulling image",
        status := none } ∧
    (destroyOp s id true).registry id = none ∧
    (launchAfterPull (destroyOp s id true) id).2 =
      Except.error "Container was destroyed while pulling image" ∧
    (launchAfterPull (destroyOp s id true) id).1 = destroyOp s id true ∧
    ∀ evs : List Event, (runTrace (destroyOp s id true) evs).ranRun id = false := by
  have hd1 : ¬ c.state = ContainerState.DESTROYING := by rw [hst]; simp
  have hd2 : ¬ c.state = ContainerState.FETCHING := by rw [hst]; simp
  have hrun : destroyOp s id true = removeWith
      { s with pullDiscarded := setF s.pullDiscarded id true } id
      (PromiseState.value
        { killed := true, message := "Container destroyed while pulling image",
          status := none }) := by
    unfold destroyOp
    rw [hc]
    dsimp only
    rw [hrf]
    dsimp only
    rw [if_neg hd1, if_neg hd2, if_pos hst]
  have hreg : (destroyOp s id true).registry id = none := by
    rw [hrun]
    unfold removeWith
    dsimp only
    exact setF_same _ _ _
  have htcne : (destroyOp s id true).tcount id ≠ 0 := by
    rw [hrun]
    unfold removeWith
    dsimp only
    rw [setF_same]
    simp
  have hrr2 : (destroyOp s id true).ranRun id = false := by
    rw [hrun]
    unfold removeWith
    dsimp only
    exact hrr
  refine ⟨?_, ?_, hreg, ?_, ?_, ?_⟩
  · rw [hrun]
    unfold removeWith
    dsimp only
    exact setF_same _ _ _
  · rw [hrun]
    unfold removeWith
    dsimp only
    exact setF_same _ _ _
  · unfold launchAfterPull
    rw [hreg]
  · unfold launchAfterPull
    rw [hreg]
  · intro evs
    rcases runTrace_gone evs (destroyOp s id true) id hreg htcne with ⟨_, h2, _⟩
    rw [h2, hrr2]

/-- A PULLING container used by the C2 witness. -/
def contPulling : Container :=
  { state := ContainerState.PULLING, resources := res1, pid := none,
    executorPid := none, runFailed := none }

/-- Witness for `destroy_while_pulling` on a concrete PULLING container:
the pull is discarded, the record is gone, and replaying the pull-success
continuation afterwards still never issues `docker run`. -/
theorem destroy_while_pulling_witness :
    (destroyOp (oneContainer flagsPlain contPulling) "a" true).pullDiscarded "a" = true ∧
    (destroyOp (oneContainer flagsPlain contPulling) "a" true).registry "a" = none ∧
    (runTrace (destroyOp (oneContainer flagsPlain contPulling) "a" true)
      [Event.pullOk "a"]).ranRun "a" = false := by
  have h := destroy_while_pulling (oneContainer flagsPlain contPulling) "a"
    contPulling rfl rfl rfl rfl
  exact ⟨h.1, h.2.2.1, h.2.2.2.2.2 [Event.pullOk "a"]⟩
